import Mathlib

set_option maxHeartbeats 1000000

namespace ModelOperator

/-!
Shallow embedding of the `kube-operator` ModelDeployment controller
(`src/operator/src/{crd,error,event,finalizer,reconsile}.rs`).

Modelling conventions:
* Rust `i32` replica counts become `Int` (the code only compares them, so no
  wrap-around can occur).
* `BTreeMap<String, String>` becomes an association list `List (String × String)`
  built in key-sorted insertion order.
* Every interaction with the Kubernetes API (get, server-side apply patch,
  metadata merge patch, status patch, event publish) goes through an `Env` of
  oracles and is recorded in an observable trace, so the reconcile pass is a
  state-passing function `TraceSt → Except Error α × TraceSt`.
* `serde_json::to_string` is kept abstract: the development is parameterised by
  one serializer per child kind (`Serializers`); the fingerprint itself
  (hex SHA-256 of the serialized bytes) is implemented concretely below.
* `controller_owner_ref(&()).unwrap()` requires `metadata.name` and
  `metadata.uid`; the parent's metadata models them as present (they are always
  set on persisted objects, and the Rust code unwraps them unconditionally).
-/

/-! ## SHA-256 (RFC 6234), executable, over byte lists -/

def mask32 (x : Nat) : Nat := x % 4294967296

def rotr (n x : Nat) : Nat := mask32 ((x >>> n) ||| (x <<< (32 - n)))

def bigSigma0 (x : Nat) : Nat := (rotr 2 x) ^^^ (rotr 13 x) ^^^ (rotr 22 x)

def bigSigma1 (x : Nat) : Nat := (rotr 6 x) ^^^ (rotr 11 x) ^^^ (rotr 25 x)

def smallSigma0 (x : Nat) : Nat := (rotr 7 x) ^^^ (rotr 18 x) ^^^ (x >>> 3)

def smallSigma1 (x : Nat) : Nat := (rotr 17 x) ^^^ (rotr 19 x) ^^^ (x >>> 10)

def chFn (e f g : Nat) : Nat := (e &&& f) ^^^ ((e ^^^ 0xffffffff) &&& g)

def majFn (a b c : Nat) : Nat := (a &&& b) ^^^ (a &&& c) ^^^ (b &&& c)

def sha256K : List Nat :=
  [1116352408, 1899447441, 3049323471, 3921009573, 961987163,
   1508970993, 2453635748, 2870763221, 3624381080, 310598401,
   607225278, 1426881987, 1925078388, 2162078206, 2614888103,
   3248222580, 3835390401, 4022224774, 264347078, 604807628,
   770255983, 1249150122, 1555081692, 1996064986, 2554220882,
   2821834349, 2952996808, 3210313671, 3336571891, 3584528711,
   113926993, 338241895, 666307205, 773529912, 1294757372,
   1396182291, 1695183700, 1986661051, 2177026350, 2456956037,
   2730485921, 2820302411, 3259730800, 3345764771, 3516065817,
   3600352804, 4094571909, 275423344, 430227734, 506948616,
   659060556, 883997877, 958139571, 1322822218, 1537002063,
   1747873779, 1955562222, 2024104815, 2227730452, 2361852424,
   2428436474, 2756734187, 3204031479, 3329325298]

structure Hash8 where
  a : Nat
  b : Nat
  c : Nat
  d : Nat
  e : Nat
  f : Nat
  g : Nat
  h : Nat
deriving Repr, DecidableEq

def sha256Init : Hash8 :=
  ⟨1779033703, 3144134277, 1013904242, 2773480762,
   1359893119, 2600822924, 528734635, 1541459225⟩

def sha256Round (s : Hash8) (kw : Nat × Nat) : Hash8 :=
  let t1 := mask32 (s.h + bigSigma1 s.e + chFn s.e s.f s.g + kw.1 + kw.2)
  let t2 := mask32 (bigSigma0 s.a + majFn s.a s.b s.c)
  ⟨mask32 (t1 + t2), s.a, s.b, s.c, mask32 (s.d + t1), s.e, s.f, s.g⟩

/-- Big-endian packing of bytes into 32-bit words. -/
def bytesToWords : List Nat → List Nat
  | b0 :: b1 :: b2 :: b3 :: rest =>
      ((b0 <<< 24) ||| (b1 <<< 16) ||| (b2 <<< 8) ||| b3) :: bytesToWords rest
  | _ => []

/-- Extend the 16-word schedule of a block to 64 words; `fuel` counts the
remaining words to generate (48 initially). -/
def extendSchedule : Nat → Array Nat → Array Nat
  | 0, w => w
  | n + 1, w =>
      let i := w.size
      let v := mask32 (smallSigma1 (w.getD (i - 2) 0) + w.getD (i - 7) 0 +
                       smallSigma0 (w.getD (i - 15) 0) + w.getD (i - 16) 0)
      extendSchedule n (w.push v)

def sha256Compress (st : Hash8) (block : List Nat) : Hash8 :=
  let w := (extendSchedule 48 (bytesToWords block).toArray).toList
  let r := (sha256K.zip w).foldl sha256Round st
  ⟨mask32 (st.a + r.a), mask32 (st.b + r.b), mask32 (st.c + r.c), mask32 (st.d + r.d),
   mask32 (st.e + r.e), mask32 (st.f + r.f), mask32 (st.g + r.g), mask32 (st.h + r.h)⟩

/-- SHA-256 length padding: append 0x80, zeros up to 56 mod 64, then the
bit length as an 8-byte big-endian integer. -/
def sha256Pad (ms : List Nat) : List Nat :=
  let len := ms.length
  let bitLen := len * 8
  let zeros := (119 - (len % 64)) % 64
  ms ++ [0x80] ++ List.replicate zeros 0 ++
    [(bitLen >>> 56) &&& 255, (bitLen >>> 48) &&& 255, (bitLen >>> 40) &&& 255,
     (bitLen >>> 32) &&& 255, (bitLen >>> 24) &&& 255, (bitLen >>> 16) &&& 255,
     (bitLen >>> 8) &&& 255, bitLen &&& 255]

/-- Process the padded message in 64-byte blocks; `fuel` is the block count. -/
def sha256Blocks : Nat → List Nat → Hash8 → Hash8
  | 0, _, st => st
  | n + 1, bytes, st => sha256Blocks n (bytes.drop 64) (sha256Compress st (bytes.take 64))

def sha256 (ms : List Nat) : Hash8 :=
  let padded := sha256Pad ms
  sha256Blocks (padded.length / 64) padded sha256Init

def hexDigitChar (n : Nat) : Char :=
  if n < 10 then Char.ofNat (48 + n) else Char.ofNat (87 + n)

/-- Lowercase hex of one 32-bit word, 8 digits (Rust `{:x}` on the digest). -/
def hexWord (w : Nat) : String :=
  String.mk ((List.range 8).map (fun i => hexDigitChar ((w >>> ((7 - i) * 4)) &&& 15)))

def sha256Hex (ms : List Nat) : String :=
  let s := sha256 ms
  hexWord s.a ++ hexWord s.b ++ hexWord s.c ++ hexWord s.d ++
  hexWord s.e ++ hexWord s.f ++ hexWord s.g ++ hexWord s.h

/-- UTF-8 encoding of one scalar value (what `str::as_bytes` yields per char). -/
def charUtf8 (c : Char) : List Nat :=
  let n := c.toNat
  if n < 0x80 then [n]
  else if n < 0x800 then
    [0xc0 ||| (n >>> 6), 0x80 ||| (n &&& 0x3f)]
  else if n < 0x10000 then
    [0xe0 ||| (n >>> 12), 0x80 ||| ((n >>> 6) &&& 0x3f), 0x80 ||| (n &&& 0x3f)]
  else
    [0xf0 ||| (n >>> 18), 0x80 ||| ((n >>> 12) &&& 0x3f),
     0x80 ||| ((n >>> 6) &&& 0x3f), 0x80 ||| (n &&& 0x3f)]

def strBytes (s : String) : List Nat :=
  s.data.foldr (fun c acc => charUtf8 c ++ acc) []

/-! ## Association lists standing for `BTreeMap<String, String>` -/

/-- `BTreeMap::get`. -/
def lookupAssoc : List (String × String) → String → Option String
  | [], _ => none
  | (k, v) :: rest, key => if k == key then some v else lookupAssoc rest key

/-- `BTreeMap::insert`: replace the value if the key is present, otherwise add
the binding (placement in the list is immaterial to the embedded code, which
only ever looks keys up). -/
def insertAssoc : List (String × String) → String → String → List (String × String)
  | [], key, v => [(key, v)]
  | (k, w) :: rest, key, v =>
      if k == key then (k, v) :: rest else (k, w) :: insertAssoc rest key v

/-! ## Shared result / error / event vocabulary (`event.rs`, `error.rs`) -/

inductive Outcome
  | NoOp
  | Created
  | Updated
deriving Repr, DecidableEq

inductive EventType
  | Normal
  | Warning
deriving Repr, DecidableEq

/-- `kube_runtime::controller::Action`: either requeue after a duration (held
here in seconds) or await an external change. -/
inductive Action
  | awaitChange
  | requeueSecs (secs : Nat)
deriving Repr, DecidableEq

/-- `error.rs`: the one variant wraps a Kubernetes client error; `msg` stands
for the wrapped error's rendering. -/
inductive Error
  | kube (msg : String)
deriving Repr, DecidableEq

/-- The `Display` impl derived by `thiserror`: "Kubernetes API error: {0}". -/
def errDisplay : Error → String
  | .kube m => "Kubernetes API error: " ++ m

/-! ## Data model (`crd.rs` and the k8s / Traefik child object types) -/

structure OwnerReference where
  apiVersion : String
  kind : String
  name : String
  uid : String
  controller : Option Bool
  blockOwnerDeletion : Option Bool
deriving Repr, DecidableEq

/-- `ObjectMeta` for child objects; every field defaults to `None` as in
`ObjectMeta::default()`. (`nspace` models the `namespace` field, whose Rust
name is a Lean keyword.) -/
structure ObjectMeta where
  name : Option String := none
  nspace : Option String := none
  labels : Option (List (String × String)) := none
  annotations : Option (List (String × String)) := none
  ownerReferences : Option (List OwnerReference) := none
  finalizers : Option (List String) := none
  deletionTimestamp : Option String := none
deriving Repr, DecidableEq

structure ModelVariant where
  image : String
  replicas : Int
deriving Repr, DecidableEq

structure ResourceLimits where
  cpu : Option String := none
  memory : Option String := none
deriving Repr, DecidableEq

structure ResourceSpec where
  limits : Option ResourceLimits := none
  requests : Option ResourceLimits := none
deriving Repr, DecidableEq

structure AutoScalingSpec where
  enabled : Bool
  minReplicas : Option Int := none
  maxReplicas : Option Int := none
  targetCpuUtilizationPercentage : Option Int := none
deriving Repr, DecidableEq

structure ProbeSpec where
  livenessPath : String := "/health"
  readinessPath : String := "/ready"
deriving Repr, DecidableEq

structure ModelDeploymentSpec where
  live : ModelVariant
  shadow : Option ModelVariant := none
  trafficMirror : Bool := false
  rolloutStrategy : String := "rolling"
  resources : Option ResourceSpec := none
  autoscaling : Option AutoScalingSpec := none
  probes : Option ProbeSpec := none
  configRef : Option String := none
deriving Repr, DecidableEq

/-- Parent metadata. `name` and `uid` are modelled as present: the API server
sets both on every persisted object and `controller_owner_ref(..).unwrap()`
in the source assumes exactly that. -/
structure MdMeta where
  name : String
  nspace : Option String := none
  uid : String
  finalizers : Option (List String) := none
  deletionTimestamp : Option String := none
deriving Repr, DecidableEq

structure ModelDeployment where
  metadata : MdMeta
  spec : ModelDeploymentSpec
deriving Repr, DecidableEq

structure ChildStatus where
  availableReplicas : Option Int := none
  updatedReplicas : Option Int := none
deriving Repr, DecidableEq

/-- `Condition`; `typ` models the Rust field `r#type`. -/
structure Condition where
  typ : String
  status : String
  reason : Option String := none
  message : Option String := none
deriving Repr, DecidableEq

structure ModelDeploymentStatus where
  phase : Option String := none
  liveStatus : Option ChildStatus := none
  shadowStatus : Option ChildStatus := none
  conditions : Option (List Condition) := none
deriving Repr, DecidableEq

/-! Child object types (the k8s_openapi / kcr_traefik_io fields the builders
touch, with `..Default::default()` fields defaulting to `none`). -/

structure ServicePort where
  port : Int
  targetPort : Option Int := none
deriving Repr, DecidableEq

structure ServiceSpec where
  selector : Option (List (String × String)) := none
  ports : Option (List ServicePort) := none
deriving Repr, DecidableEq

structure Service where
  metadata : ObjectMeta := {}
  spec : Option ServiceSpec := none
deriving Repr, DecidableEq

structure ContainerPort where
  containerPort : Int
deriving Repr, DecidableEq

structure Container where
  name : String
  image : Option String := none
  ports : Option (List ContainerPort) := none
deriving Repr, DecidableEq

structure PodSpec where
  containers : List Container
deriving Repr, DecidableEq

structure PodTemplateSpec where
  metadata : Option ObjectMeta := none
  spec : Option PodSpec := none
deriving Repr, DecidableEq

structure LabelSelector where
  matchLabels : Option (List (String × String)) := none
deriving Repr, DecidableEq

structure RollingUpdateDeployment where
  maxSurge : Option Int := none
  maxUnavailable : Option Int := none
deriving Repr, DecidableEq

structure DeploymentStrategy where
  rollingUpdate : Option RollingUpdateDeployment := none
  typ : Option String := none
deriving Repr, DecidableEq

structure DeploymentSpec where
  replicas : Option Int := none
  selector : LabelSelector := {}
  template : PodTemplateSpec := {}
  strategy : Option DeploymentStrategy := none
deriving Repr, DecidableEq

structure DeploymentStatus where
  availableReplicas : Option Int := none
  updatedReplicas : Option Int := none
deriving Repr, DecidableEq

structure Deployment where
  metadata : ObjectMeta := {}
  spec : Option DeploymentSpec := none
  status : Option DeploymentStatus := none
deriving Repr, DecidableEq

structure TraefikServiceMirroringMirrors where
  name : String
  kind : Option String := none
  port : Option Int := none
  percent : Option Int := none
deriving Repr, DecidableEq

structure TraefikServiceMirroring where
  name : String
  kind : Option String := none
  port : Option Int := none
  mirrors : Option (List TraefikServiceMirroringMirrors) := none
deriving Repr, DecidableEq

structure TraefikServiceSpec where
  mirroring : Option TraefikServiceMirroring := none
deriving Repr, DecidableEq

structure TraefikService where
  metadata : ObjectMeta := {}
  spec : TraefikServiceSpec := {}
deriving Repr, DecidableEq

structure IngressRouteRoutesServices where
  name : String
  kind : Option String := none
  port : Option Int := none
deriving Repr, DecidableEq

/-- `routeMatch` models the Rust field `r#match`. -/
structure IngressRouteRoutes where
  kind : Option String := none
  routeMatch : String
  services : Option (List IngressRouteRoutesServices) := none
deriving Repr, DecidableEq

structure IngressRouteSpec where
  entryPoints : Option (List String) := none
  routes : List IngressRouteRoutes := []
deriving Repr, DecidableEq

structure IngressRoute where
  metadata : ObjectMeta := {}
  spec : IngressRouteSpec := {}
deriving Repr, DecidableEq

/-! ## Builders (`reconsile.rs` lines 44-66, 68-70, 231-411) -/

inductive DeploymentType
  | Live
  | Shadow
deriving Repr, DecidableEq

/-- The `Display` impl (used by `to_string` and `format!` in the builders). -/
def DeploymentType.display : DeploymentType → String
  | .Live => "live"
  | .Shadow => "shadow"

/-- The `AsRef<str>` impl. It yields "Shadow" with a capital S; no builder
calls it, so the typo is dead code. -/
def DeploymentType.asRefStr : DeploymentType → String
  | .Live => "live"
  | .Shadow => "Shadow"

/-- `owner_ref`: `md.controller_owner_ref(&()).unwrap()`. -/
def owner_ref (md : ModelDeployment) : OwnerReference :=
  { apiVersion := "ml.jedimindtricks.example/v1alpha1"
    kind := "ModelDeployment"
    name := md.metadata.name
    uid := md.metadata.uid
    controller := some true
    blockOwnerDeletion := some true }

/-- The `{app, role}` label map both builders construct ("app" < "role", so
the sorted `BTreeMap` order equals insertion order). -/
def roleLabels (base : String) (role : DeploymentType) : List (String × String) :=
  [("app", base), ("role", role.display)]

/-- The `Service` value constructed inside `ensure_service`. -/
def build_service (md : ModelDeployment) (base : String) (role : DeploymentType) : Service :=
  let labels := roleLabels base role
  { metadata :=
      { name := some (base ++ "-" ++ role.display ++ "-svc")
        labels := some labels
        ownerReferences := some [owner_ref md] }
    spec := some
      { selector := some labels
        ports := some [{ port := 8000, targetPort := some 8000 }] } }

/-- The `Deployment` value constructed inside `ensure_deployment`. -/
def build_deployment (md : ModelDeployment) (deploymentName base image : String)
    (replicas : Int) (role : DeploymentType) : Deployment :=
  let labels := roleLabels base role
  { metadata :=
      { name := some deploymentName
        labels := some labels
        ownerReferences := some [owner_ref md] }
    spec := some
      { replicas := some replicas
        selector := { matchLabels := some labels }
        template :=
          { metadata := some { labels := some labels }
            spec := some { containers :=
              [{ name := deploymentName
                 image := some image
                 ports := some [{ containerPort := 8000 }] }] } }
        strategy := some { rollingUpdate := some {} } } }

/-- The `TraefikService` value constructed inside `ensure_traefik_service`. -/
def build_traefik_service (md : ModelDeployment) (base ns : String) : TraefikService :=
  { metadata :=
      { name := some base
        nspace := some ns
        ownerReferences := some [owner_ref md] }
    spec :=
      { mirroring := some
          { name := base ++ "-live-svc"
            kind := some "Service"
            port := some 8000
            mirrors := some
              [{ name := base ++ "-shadow-svc"
                 kind := some "Service"
                 port := some 8000
                 percent := some 100 }] } } }

/-- The `IngressRoute` value constructed inside `ensure_ingress_route`. -/
def build_ingress_route (md : ModelDeployment) (base ns : String) : IngressRoute :=
  { metadata :=
      { name := some base
        nspace := some ns
        ownerReferences := some [owner_ref md] }
    spec :=
      { entryPoints := some ["web"]
        routes :=
          [{ kind := some "Rule"
             routeMatch := "Host(`" ++ base ++ "." ++ "local" ++ "`)"
             services := some
               [{ name := base
                  kind := some "TraefikService"
                  port := some 8000 }] }] } }

/-! ## Observable trace of API interactions and the effect monad -/

/-- One recorded interaction with the cluster API or the event recorder. -/
inductive TraceItem
  | event (reason note : String) (etype : EventType) (published : Bool)
  | getOp (kind ns name : String)
  | applyPatch (kind ns name fieldManager : String) (anns : List (String × String))
  | metadataPatch (ns name : String) (finalizers : List String)
  | statusPatch (ns name : String) (status : ModelDeploymentStatus)
deriving Repr, DecidableEq

structure TraceSt where
  trace : List TraceItem := []
  eventIdx : Nat := 0
deriving Repr, DecidableEq

/-- The reconcile pass as explicit state passing: every async step either
yields a value or short-circuits with `Error` (Rust `?`), while the trace of
attempted API interactions is retained either way. -/
def M (α : Type) : Type := TraceSt → Except Error α × TraceSt

def M.pure {α : Type} (a : α) : M α := fun st => (.ok a, st)

def M.bind {α β : Type} (m : M α) (f : α → M β) : M β := fun st =>
  match m st with
  | (.ok a, st') => f a st'
  | (.error e, st') => (.error e, st')

/-- Oracles standing for the cluster API server and the event recorder.
`publishOk n` tells whether the n-th event publish of the pass succeeds. -/
structure Env where
  getService : String → Except Error (Option Service)
  getDeployment : String → Except Error (Option Deployment)
  getTraefikService : String → Except Error (Option TraefikService)
  getIngressRoute : String → Except Error (Option IngressRoute)
  applyResult : String → String → Except Error Unit
  patchMetadataResult : Except Error Unit
  patchStatusResult : Except Error Unit
  publishOk : Nat → Bool

/-- `serde_json::to_string` for each child kind, kept abstract: none of the
verified properties depends on the concrete encoding, only on it being a
function of the value. -/
structure Serializers where
  svc : Service → String
  deploy : Deployment → String
  traefik : TraefikService → String
  ingress : IngressRoute → String

/-! ## Event recorder (`event.rs`) -/

/-- `emit_event`: publish one event on the parent and propagate a publish
failure as `Err` (the callers decide whether to swallow it). -/
def emit_event (env : Env) (reason note : String) (etype : EventType) : M Unit := fun st =>
  let ok := env.publishOk st.eventIdx
  let st' : TraceSt :=
    { trace := st.trace ++ [.event reason note etype ok], eventIdx := st.eventIdx + 1 }
  (if ok then .ok () else .error (.kube "event publish failed"), st')

/-- `with_event`: run `op`; emit a Normal event on `Created`/`Updated`,
nothing on `NoOp`, a Warning on `Err`; the emit's own result is discarded
(`let _ = ...`), and `op`'s result is returned unchanged. -/
def with_event (env : Env) (successMsg successReason failReason : String)
    (op : M Outcome) : M Outcome := fun st =>
  match op st with
  | (.ok o, st') =>
    match o with
    | .NoOp => (.ok o, st')
    | _ => (.ok o, (emit_event env successReason successMsg .Normal st').2)
  | (.error e, st') =>
      (.error e, (emit_event env failReason (errDisplay e) .Warning st').2)

/-! ## Finalizer manager (`finalizer.rs`) -/

def FINALIZER : String := "ml.jedimindtricks.example/finalizer"

def is_deleting (md : ModelDeployment) : Bool :=
  md.metadata.deletionTimestamp.isSome

def has_finalizer (md : ModelDeployment) (f : String) : Bool :=
  ((md.metadata.finalizers).getD []).any (· == f)

def ensure_finalizer_present (env : Env) (md : ModelDeployment) (ns f : String) :
    M Outcome := fun st =>
  if has_finalizer md f then (.ok .NoOp, st)
  else
    let fins := (md.metadata.finalizers.getD []) ++ [f]
    let st' : TraceSt := { st with trace := st.trace ++ [.metadataPatch ns md.metadata.name fins] }
    match env.patchMetadataResult with
    | .error e => (.error e, st')
    | .ok _ => (.ok .Created, st')

def remove_finalizer (env : Env) (md : ModelDeployment) (ns f : String) :
    M Outcome := fun st =>
  let fins := (md.metadata.finalizers.getD []).filter (fun x => x ≠ f)
  let st' : TraceSt := { st with trace := st.trace ++ [.metadataPatch ns md.metadata.name fins] }
  match env.patchMetadataResult with
  | .error e => (.error e, st')
  | .ok _ => (.ok .Updated, st')

/-! ## Fingerprint and apply engine (`reconsile.rs` lines 546-591) -/

def FP_ANN : String := "ml.jedimindtricks.example/desired-fingerprint"

/-- `desired_fingerprint`: hex SHA-256 of the serialized value. -/
def desired_fingerprint {K : Type} (serialize : K → String) (t : K) : String :=
  sha256Hex (strBytes (serialize t))

/-- The capability set the generic `reconsile_resource` needs from a typed
resource handle's item type. -/
structure ResourceOps (K : Type) where
  kind : String
  name : K → String
  anns : K → Option (List (String × String))
  withAnns : K → List (String × String) → K
  serialize : K → String

/-- The nested `if let` chain deciding the NoOp short-circuit: the existing
object is present, carries annotations, carries `FP_ANN`, and its value equals
the freshly computed fingerprint. -/
def fpMatches {K : Type} (ops : ResourceOps K) (existing : Option K) (fp : String) : Bool :=
  match existing with
  | none => false
  | some r =>
    match ops.anns r with
    | none => false
    | some a =>
      match lookupAssoc a FP_ANN with
      | none => false
      | some old => old == fp

def reconsile_resource {K : Type} (ops : ResourceOps K)
    (getOpt : String → Except Error (Option K))
    (applyRes : String → String → Except Error Unit)
    (ns : String) (desired : K) : M Outcome := fun st =>
  let name := ops.name desired
  let st1 : TraceSt := { st with trace := st.trace ++ [.getOp ops.kind ns name] }
  match getOpt name with
  | .error e => (.error e, st1)
  | .ok existing =>
    let fp := desired_fingerprint ops.serialize desired
    if fpMatches ops existing fp then (.ok .NoOp, st1)
    else
      let newAnns := insertAssoc ((ops.anns desired).getD []) FP_ANN fp
      let st2 : TraceSt :=
        { st1 with trace := st1.trace ++ [.applyPatch ops.kind ns name "model-operator" newAnns] }
      match applyRes ops.kind name with
      | .error e => (.error e, st2)
      | .ok _ => (.ok (if existing.isNone then .Created else .Updated), st2)

def svcOps (sers : Serializers) : ResourceOps Service :=
  { kind := "Service"
    name := fun s => s.metadata.name.getD ""
    anns := fun s => s.metadata.annotations
    withAnns := fun s a => { s with metadata := { s.metadata with annotations := some a } }
    serialize := sers.svc }

def deployOps (sers : Serializers) : ResourceOps Deployment :=
  { kind := "Deployment"
    name := fun s => s.metadata.name.getD ""
    anns := fun s => s.metadata.annotations
    withAnns := fun s a => { s with metadata := { s.metadata with annotations := some a } }
    serialize := sers.deploy }

def traefikOps (sers : Serializers) : ResourceOps TraefikService :=
  { kind := "TraefikService"
    name := fun s => s.metadata.name.getD ""
    anns := fun s => s.metadata.annotations
    withAnns := fun s a => { s with metadata := { s.metadata with annotations := some a } }
    serialize := sers.traefik }

def ingressOps (sers : Serializers) : ResourceOps IngressRoute :=
  { kind := "IngressRoute"
    name := fun s => s.metadata.name.getD ""
    anns := fun s => s.metadata.annotations
    withAnns := fun s a => { s with metadata := { s.metadata with annotations := some a } }
    serialize := sers.ingress }

/-! ## ensure_* steps (`reconsile.rs` lines 231-411) -/

def ensure_service (env : Env) (sers : Serializers) (ns : String)
    (md : ModelDeployment) (base : String) (role : DeploymentType) : M Outcome :=
  reconsile_resource (svcOps sers) env.getService env.applyResult ns
    (build_service md base role)

def ensure_deployment (env : Env) (sers : Serializers) (ns : String)
    (md : ModelDeployment) (deploymentName base image : String) (replicas : Int)
    (role : DeploymentType) : M Outcome :=
  reconsile_resource (deployOps sers) env.getDeployment env.applyResult ns
    (build_deployment md deploymentName base image replicas role)

def ensure_traefik_service (env : Env) (sers : Serializers)
    (md : ModelDeployment) (base ns : String) : M Outcome :=
  reconsile_resource (traefikOps sers) env.getTraefikService env.applyResult ns
    (build_traefik_service md base ns)

def ensure_ingress_route (env : Env) (sers : Serializers)
    (md : ModelDeployment) (base ns : String) : M Outcome :=
  reconsile_resource (ingressOps sers) env.getIngressRoute env.applyResult ns
    (build_ingress_route md base ns)

/-! ## Status aggregation (`reconsile.rs` lines 413-544) -/

def convert_to_child_status (d : Deployment) : ChildStatus :=
  { availableReplicas := d.status.bind (·.availableReplicas)
    updatedReplicas := d.status.bind (·.updatedReplicas) }

def get_child_status (env : Env) (base ns : String) :
    M (Option ChildStatus × Option ChildStatus) := fun st =>
  let liveName := base ++ "-live"
  let shadowName := base ++ "-shadow"
  let st1 : TraceSt := { st with trace := st.trace ++ [.getOp "Deployment" ns liveName] }
  match env.getDeployment liveName with
  | .error e => (.error e, st1)
  | .ok liveO =>
    let st2 : TraceSt := { st1 with trace := st1.trace ++ [.getOp "Deployment" ns shadowName] }
    match env.getDeployment shadowName with
    | .error e => (.error e, st2)
    | .ok shadowO =>
        (.ok (liveO.map convert_to_child_status, shadowO.map convert_to_child_status), st2)

/-- The helper `availabld_replicas` (name as in the source):
`cs.as_ref().and_then(|s| s.available_replicas).unwrap_or(0)`. -/
def availabld_replicas (cs : Option ChildStatus) : Int :=
  (cs.bind (·.availableReplicas)).getD 0

def compute_model_deployment_status (spec : ModelDeploymentSpec)
    (live shadow : Option ChildStatus) : ModelDeploymentStatus :=
  let live_available := availabld_replicas live
  let live_desired := spec.live.replicas
  let shadow_available := availabld_replicas shadow
  let shadow_desired := ((spec.shadow.map (·.replicas)).getD 0)
  let phase : Option String :=
    if live_available = live_desired ∧ (spec.shadow.isNone ∨ shadow_available = shadow_desired)
    then some "Available"
    else if live_available = 0 ∧ live_desired > 0 then some "Degraded"
    else some "Progressing"
  let ready : Prop :=
    live_available = live_desired ∧ (spec.shadow.isNone ∨ shadow_available = shadow_desired)
  let readyCond : Condition :=
    { typ := "Ready"
      status := if ready then "True" else "False"
      reason := some (if ready then "AllReplicasAvailable" else "ReplicasNotReady")
      message := some ("live " ++ toString live_available ++ "/" ++ toString live_desired ++
        " shadow " ++ toString shadow_available ++ "/" ++ toString shadow_desired ++
        " available") }
  let progressingCond : Condition :=
    { typ := "Progressing"
      status := if ¬ ready then "True" else "False"
      reason := some "Reconciling"
      message := some "Deployment is rolling out or scaling." }
  let degraded : Prop := live_available = 0 ∧ live_desired > 0
  let degradedCond : Condition :=
    { typ := "Degraded"
      status := if degraded then "True" else "False"
      reason := some "NoAvailableReplicas"
      message := some "No live replicas are currently available." }
  { phase := phase
    liveStatus := live
    shadowStatus := shadow
    conditions := some [readyCond, progressingCond, degradedCond] }

def update_status (env : Env) (md : ModelDeployment) (ns : String)
    (status : ModelDeploymentStatus) : M Unit := fun st =>
  let st' : TraceSt := { st with trace := st.trace ++ [.statusPatch ns md.metadata.name status] }
  match env.patchStatusResult with
  | .error e => (.error e, st')
  | .ok _ => (.ok (), st')

/-! ## The reconcile orchestrator (`reconsile.rs` lines 72-225) -/

def reconsile (env : Env) (sers : Serializers) (md : ModelDeployment) : M Action :=
  let ns := md.metadata.nspace.getD "default"
  let base_name := md.metadata.name
  let spec := md.spec
  if is_deleting md then
    if has_finalizer md FINALIZER then
      M.bind (emit_event env "Finalizing" "Deletion requested; running finalizer." .Normal)
        (fun _ =>
      M.bind (with_event env "Finalizer complete; allowing deletion." "Finalized"
                "FinalizingFailed" (remove_finalizer env md ns FINALIZER))
        (fun _ => M.pure Action.awaitChange))
    else M.pure Action.awaitChange
  else
    M.bind (with_event env "Created finalizer for ModelDeployment" "FinalizerCreated"
              "FinalizerFailed" (ensure_finalizer_present env md ns FINALIZER)) (fun out0 =>
    let changed0 := out0 ≠ Outcome.NoOp
    M.bind (with_event env "Created live svc for ModelDeployment" "LiveSvcCreated"
              "LiveSvcFailed" (ensure_service env sers ns md base_name .Live)) (fun out1 =>
    let changed1 := changed0 ∨ out1 ≠ Outcome.NoOp
    M.bind (if spec.shadow.isSome then
              with_event env "Created shadow svc for ModelDeployment" "ShadowSvcCreated"
                "ShadowSvcFailed" (ensure_service env sers ns md base_name .Shadow)
            else M.pure Outcome.NoOp) (fun out2 =>
    let changed2 := changed1 ∨ out2 ≠ Outcome.NoOp
    M.bind (with_event env "Created live Deployment" "LiveDeploymentCreated"
              "LiveDeploymentFailed"
              (ensure_deployment env sers ns md (base_name ++ "-live") base_name
                spec.live.image spec.live.replicas .Live)) (fun out3 =>
    let changed3 := changed2 ∨ out3 ≠ Outcome.NoOp
    M.bind (match spec.shadow with
            | some sh =>
              with_event env "Created shadow Deployment" "ShadowDeploymentCreated"
                "ShadowDeploymentFailed"
                (ensure_deployment env sers ns md (base_name ++ "-shadow") base_name
                  sh.image sh.replicas .Shadow)
            | none => M.pure Outcome.NoOp) (fun out4 =>
    let changed4 := changed3 ∨ out4 ≠ Outcome.NoOp
    M.bind (if spec.trafficMirror then
              with_event env "Created Traefik Service" "TraefikServiceCreated"
                "TraefikServiceFailed" (ensure_traefik_service env sers md base_name ns)
            else M.pure Outcome.NoOp) (fun out5 =>
    let changed5 := changed4 ∨ out5 ≠ Outcome.NoOp
    M.bind (if spec.trafficMirror then
              with_event env "Created Ingress Route" "IngressRouteCreated"
                "IngressRouteFailed" (ensure_ingress_route env sers md base_name ns)
            else M.pure Outcome.NoOp) (fun out6 =>
    let changed6 := changed5 ∨ out6 ≠ Outcome.NoOp
    M.bind (get_child_status env base_name ns) (fun childSt =>
    M.bind (update_status env md ns
        (compute_model_deployment_status spec childSt.1 childSt.2)) (fun _ =>
    M.bind (if changed6 then emit_event env "Reconciled" "Reconciliation completed" .Normal
            else M.pure ()) (fun _ =>
    M.pure (Action.requeueSecs 60)))))))))))

/-- One invocation of the pass from a fresh trace. -/
def runReconsile (env : Env) (sers : Serializers) (md : ModelDeployment) :
    Except Error Action × TraceSt :=
  reconsile env sers md {}

/-- `error_policy`: requeue after 10 s on any error. -/
def error_policy : Action := Action.requeueSecs 10

/-! ## Trace observations -/

/-- A write against a child object or the parent's metadata: exactly the
operations the pass's `changed` flag tracks (`changed |= out != NoOp`). -/
def isWrite : TraceItem → Bool
  | .applyPatch _ _ _ _ _ => true
  | .metadataPatch _ _ _ => true
  | _ => false

def isApplyItem : TraceItem → Bool
  | .applyPatch _ _ _ _ _ => true
  | _ => false

def isStatusItem : TraceItem → Bool
  | .statusPatch _ _ _ => true
  | _ => false

def isEventWithReason (r : String) : TraceItem → Bool
  | .event r' _ _ _ => r' == r
  | _ => false

/-- The namespace a trace item's API handle was scoped to (events carry none:
the recorder is process-wide). -/
def itemNs : TraceItem → Option String
  | .event _ _ _ _ => none
  | .getOp _ ns _ => some ns
  | .applyPatch _ ns _ _ _ => some ns
  | .metadataPatch ns _ _ => some ns
  | .statusPatch ns _ _ => some ns

def itemNsOk (ns : String) (i : TraceItem) : Bool :=
  match itemNs i with
  | none => true
  | some n => n == ns

/-! ## Generic list helpers -/

lemma exists_mem_append {α : Type} {P : α → Prop} {l₁ l₂ : List α} :
    (∃ i ∈ l₁ ++ l₂, P i) ↔ (∃ i ∈ l₁, P i) ∨ (∃ i ∈ l₂, P i) := by
  constructor
  · rintro ⟨i, hi, hp⟩
    rcases List.mem_append.mp hi with h | h
    exacts [Or.inl ⟨i, h, hp⟩, Or.inr ⟨i, h, hp⟩]
  · rintro (⟨i, hi, hp⟩ | ⟨i, hi, hp⟩)
    exacts [⟨i, List.mem_append.mpr (Or.inl hi), hp⟩,
            ⟨i, List.mem_append.mpr (Or.inr hi), hp⟩]

lemma not_exists_of_all_false {α : Type} {p : α → Bool} {l : List α}
    (h : ∀ i ∈ l, p i = false) : ¬ ∃ i ∈ l, p i = true := by
  rintro ⟨i, hi, hp⟩
  rw [h i hi] at hp
  exact Bool.false_ne_true hp

lemma lookupAssoc_insertAssoc (l : List (String × String)) (k v : String) :
    lookupAssoc (insertAssoc l k v) k = some v := by
  induction l with
  | nil => simp [insertAssoc, lookupAssoc]
  | cons kv rest ih =>
      by_cases hk : kv.1 == k
      · simp [insertAssoc, lookupAssoc, hk]
      · simp only [insertAssoc, lookupAssoc, hk, Bool.false_eq_true, if_false]
        exact ih

lemma mem_filter_ne_self (l : List String) (f : String) :
    f ∉ l.filter (fun x => x ≠ f) := by
  intro h
  have := List.of_mem_filter h
  simp at this

lemma filter_ne_of_not_mem (l : List String) (f : String) (h : f ∉ l) :
    l.filter (fun x => x ≠ f) = l := by
  apply List.filter_eq_self.mpr
  intro x hx
  simp only [decide_eq_true_eq]
  intro hxf
  exact h (hxf ▸ hx)

/-! ## Per-step specification -/

/-- What every `changed`-tracked step of a pass guarantees: it only appends to
the trace; everything appended is scoped to `ns`; it emits no "Reconciled"
event and no status patch; and when it succeeds, it appended a write patch
exactly when its outcome is not `NoOp`. -/
def StepOk (ns : String) (m : M Outcome) : Prop :=
  ∀ st, ∃ Δ, (m st).2.trace = st.trace ++ Δ ∧
    (∀ i ∈ Δ, itemNsOk ns i = true) ∧
    (∀ i ∈ Δ, isEventWithReason "Reconciled" i = false) ∧
    (∀ i ∈ Δ, isStatusItem i = false) ∧
    (∀ o, (m st).1 = .ok o → ((∃ i ∈ Δ, isWrite i = true) ↔ o ≠ Outcome.NoOp))

lemma stepOk_pure_noop {ns : String} : StepOk ns (M.pure Outcome.NoOp) := by
  intro st
  refine ⟨[], by simp [M.pure], by simp, by simp, by simp, ?_⟩
  intro o ho
  simp only [M.pure] at ho
  cases ho
  simp

lemma stepOk_ensure_finalizer {ns : String} (env : Env) (md : ModelDeployment) (f : String) :
    StepOk ns (ensure_finalizer_present env md ns f) := by
  intro st
  unfold ensure_finalizer_present
  by_cases hf : has_finalizer md f
  · refine ⟨[], by simp [hf], by simp, by simp, by simp, ?_⟩
    intro o ho
    simp only [hf, if_true] at ho
    cases ho
    simp
  · simp only [hf, Bool.false_eq_true, if_false]
    rcases hp : env.patchMetadataResult with e | u
    · refine ⟨[.metadataPatch ns md.metadata.name ((md.metadata.finalizers.getD []) ++ [f])],
        by simp [hp], ?_, by simp [isEventWithReason], by simp [isStatusItem], ?_⟩
      · intro i hi
        simp at hi
        simp [hi, itemNsOk, itemNs]
      · intro o ho
        simp [hp] at ho
    · refine ⟨[.metadataPatch ns md.metadata.name ((md.metadata.finalizers.getD []) ++ [f])],
        by simp [hp], ?_, by simp [isEventWithReason], by simp [isStatusItem], ?_⟩
      · intro i hi
        simp at hi
        simp [hi, itemNsOk, itemNs]
      · intro o ho
        simp only [hp] at ho
        cases ho
        simp [isWrite]

lemma stepOk_reconsile_resource {K : Type} {ns : String} (ops : ResourceOps K)
    (getOpt : String → Except Error (Option K))
    (applyRes : String → String → Except Error Unit) (d : K) :
    StepOk ns (reconsile_resource ops getOpt applyRes ns d) := by
  intro st
  unfold reconsile_resource
  rcases hg : getOpt (ops.name d) with e | ex
  · refine ⟨[.getOp ops.kind ns (ops.name d)], by simp [hg], ?_,
      by simp [isEventWithReason], by simp [isStatusItem], ?_⟩
    · intro i hi
      simp at hi
      simp [hi, itemNsOk, itemNs]
    · intro o ho
      simp [hg] at ho
  · by_cases hm : fpMatches ops ex (desired_fingerprint ops.serialize d)
    · refine ⟨[.getOp ops.kind ns (ops.name d)], by simp [hg, hm], ?_,
        by simp [isEventWithReason], by simp [isStatusItem], ?_⟩
      · intro i hi
        simp at hi
        simp [hi, itemNsOk, itemNs]
      · intro o ho
        simp only [hg, hm, if_true] at ho
        cases ho
        simp [isWrite]
    · rcases ha : applyRes ops.kind (ops.name d) with e | u
      · refine ⟨[.getOp ops.kind ns (ops.name d),
          .applyPatch ops.kind ns (ops.name d) "model-operator"
            (insertAssoc ((ops.anns d).getD []) FP_ANN (desired_fingerprint ops.serialize d))],
          by simp [hg, hm, ha], ?_, by simp [isEventWithReason], by simp [isStatusItem], ?_⟩
        · intro i hi
          simp at hi
          rcases hi with hi | hi <;> simp [hi, itemNsOk, itemNs]
        · intro o ho
          simp [hg, hm, ha] at ho
      · refine ⟨[.getOp ops.kind ns (ops.name d),
          .applyPatch ops.kind ns (ops.name d) "model-operator"
            (insertAssoc ((ops.anns d).getD []) FP_ANN (desired_fingerprint ops.serialize d))],
          by simp [hg, hm, ha], ?_, by simp [isEventWithReason], by simp [isStatusItem], ?_⟩
        · intro i hi
          simp at hi
          rcases hi with hi | hi <;> simp [hi, itemNsOk, itemNs]
        · intro o ho
          simp only [hg, hm, Bool.false_eq_true, if_false, ha] at ho
          cases ho
          constructor
          · intro _
            cases ex <;> simp
          · intro _
            refine ⟨TraceItem.applyPatch ops.kind ns (ops.name d) "model-operator"
              (insertAssoc ((ops.anns d).getD []) FP_ANN (desired_fingerprint ops.serialize d)),
              by simp, by simp [isWrite]⟩

lemma stepOk_with_event {ns : String} (env : Env) (msg sr fr : String) {m : M Outcome}
    (hsr : (sr == "Reconciled") = false) (hfr : (fr == "Reconciled") = false)
    (hm : StepOk ns m) : StepOk ns (with_event env msg sr fr m) := by
  intro st
  obtain ⟨Δ, ht, hns, hnr, hnst, hw⟩ := hm st
  rcases hres : m st with ⟨r, st'⟩
  rw [hres] at ht hw
  have ht' : st'.trace = st.trace ++ Δ := ht
  rcases r with e | o
  · have heq : with_event env msg sr fr m st =
        (.error e, ⟨st'.trace ++
            [.event fr (errDisplay e) .Warning (env.publishOk st'.eventIdx)],
          st'.eventIdx + 1⟩) := by
      simp [with_event, hres, emit_event]
    refine ⟨Δ ++ [.event fr (errDisplay e) .Warning (env.publishOk st'.eventIdx)],
      ?_, ?_, ?_, ?_, ?_⟩
    · rw [heq]
      simp [ht']
    · intro i hi
      rcases List.mem_append.mp hi with hi | hi
      · exact hns i hi
      · simp at hi
        simp [hi, itemNsOk, itemNs]
    · intro i hi
      rcases List.mem_append.mp hi with hi | hi
      · exact hnr i hi
      · simp at hi
        simp [hi, isEventWithReason, hfr]
    · intro i hi
      rcases List.mem_append.mp hi with hi | hi
      · exact hnst i hi
      · simp at hi
        simp [hi, isStatusItem]
    · intro o ho
      rw [heq] at ho
      simp at ho
  · have hwo := hw o rfl
    rcases o with _ | _ | _
    · have heq : with_event env msg sr fr m st = (.ok Outcome.NoOp, st') := by
        simp [with_event, hres]
      refine ⟨Δ, by rw [heq]; exact ht', hns, hnr, hnst, ?_⟩
      intro o ho
      rw [heq] at ho
      cases ho
      exact hwo
    · have heq : with_event env msg sr fr m st =
          (.ok Outcome.Created, ⟨st'.trace ++
              [.event sr msg .Normal (env.publishOk st'.eventIdx)],
            st'.eventIdx + 1⟩) := by
        simp [with_event, hres, emit_event]
      refine ⟨Δ ++ [.event sr msg .Normal (env.publishOk st'.eventIdx)], ?_, ?_, ?_, ?_, ?_⟩
      · rw [heq]
        simp [ht']
      · intro i hi
        rcases List.mem_append.mp hi with hi | hi
        · exact hns i hi
        · simp at hi
          simp [hi, itemNsOk, itemNs]
      · intro i hi
        rcases List.mem_append.mp hi with hi | hi
        · exact hnr i hi
        · simp at hi
          simp [hi, isEventWithReason, hsr]
      · intro i hi
        rcases List.mem_append.mp hi with hi | hi
        · exact hnst i hi
        · simp at hi
          simp [hi, isStatusItem]
      · intro o ho
        rw [heq] at ho
        cases ho
        rw [exists_mem_append]
        constructor
        · intro _
          simp
        · intro _
          exact Or.inl (hwo.mpr (by simp))
    · have heq : with_event env msg sr fr m st =
          (.ok Outcome.Updated, ⟨st'.trace ++
              [.event sr msg .Normal (env.publishOk st'.eventIdx)],
            st'.eventIdx + 1⟩) := by
        simp [with_event, hres, emit_event]
      refine ⟨Δ ++ [.event sr msg .Normal (env.publishOk st'.eventIdx)], ?_, ?_, ?_, ?_, ?_⟩
      · rw [heq]
        simp [ht']
      · intro i hi
        rcases List.mem_append.mp hi with hi | hi
        · exact hns i hi
        · simp at hi
          simp [hi, itemNsOk, itemNs]
      · intro i hi
        rcases List.mem_append.mp hi with hi | hi
        · exact hnr i hi
        · simp at hi
          simp [hi, isEventWithReason, hsr]
      · intro i hi
        rcases List.mem_append.mp hi with hi | hi
        · exact hnst i hi
        · simp at hi
          simp [hi, isStatusItem]
      · intro o ho
        rw [heq] at ho
        cases ho
        rw [exists_mem_append]
        constructor
        · intro _
          simp
        · intro _
          exact Or.inl (hwo.mpr (by simp))

lemma stepOk_ite {ns : String} {c : Prop} [Decidable c] {m₁ m₂ : M Outcome}
    (h₁ : StepOk ns m₁) (h₂ : StepOk ns m₂) : StepOk ns (if c then m₁ else m₂) := by
  by_cases hc : c
  · rwa [if_pos hc]
  · rwa [if_neg hc]

lemma stepOk_match_shadow {ns : String} (osh : Option ModelVariant)
    {f : ModelVariant → M Outcome} (hf : ∀ sh, StepOk ns (f sh)) :
    StepOk ns (match osh with
               | some sh => f sh
               | none => M.pure Outcome.NoOp) := by
  cases osh with
  | none => exact stepOk_pure_noop
  | some sh => exact hf sh

lemma stepOk_ensure_service {ns : String} (env : Env) (sers : Serializers)
    (md : ModelDeployment) (base : String) (role : DeploymentType) :
    StepOk ns (ensure_service env sers ns md base role) :=
  stepOk_reconsile_resource _ _ _ _

lemma stepOk_ensure_deployment {ns : String} (env : Env) (sers : Serializers)
    (md : ModelDeployment) (deploymentName base image : String) (replicas : Int)
    (role : DeploymentType) :
    StepOk ns (ensure_deployment env sers ns md deploymentName base image replicas role) :=
  stepOk_reconsile_resource _ _ _ _

lemma stepOk_ensure_traefik {ns : String} (env : Env) (sers : Serializers)
    (md : ModelDeployment) (base : String) :
    StepOk ns (ensure_traefik_service env sers md base ns) :=
  stepOk_reconsile_resource _ _ _ _

lemma stepOk_ensure_ingress {ns : String} (env : Env) (sers : Serializers)
    (md : ModelDeployment) (base : String) :
    StepOk ns (ensure_ingress_route env sers md base ns) :=
  stepOk_reconsile_resource _ _ _ _

/-! ## Tail specification: the rest of a pass after any prefix of steps -/

/-- What the remainder of a non-deleting pass guarantees, given that `wrote`
says whether some earlier step already issued a write patch: everything
appended is scoped to `ns`; a success returns requeue-after-60s; and on
success the trace grows a "Reconciled" event exactly when a write happened
before or within the remainder. -/
def TailOk (ns : String) (wrote : Prop) (m : M Action) : Prop :=
  ∀ st, ∃ Δ, (m st).2.trace = st.trace ++ Δ ∧
    (∀ i ∈ Δ, itemNsOk ns i = true) ∧
    (∀ a, (m st).1 = .ok a → a = Action.requeueSecs 60) ∧
    ((m st).1 = .ok (Action.requeueSecs 60) →
      ((∃ i ∈ Δ, isEventWithReason "Reconciled" i = true) ↔
       (wrote ∨ ∃ i ∈ Δ, isWrite i = true)))

lemma tailOk_congr {ns : String} {w w' : Prop} (hw : w ↔ w') {m : M Action}
    (h : TailOk ns w m) : TailOk ns w' m := by
  intro st
  obtain ⟨Δ, h1, h2, h3, h4⟩ := h st
  exact ⟨Δ, h1, h2, h3, fun hok => (h4 hok).trans (or_congr_left hw)⟩

lemma tailOk_bind_step {ns : String} {m : M Outcome} {f : Outcome → M Action} {wrote : Prop}
    (hm : StepOk ns m) (hf : ∀ o, TailOk ns (wrote ∨ o ≠ Outcome.NoOp) (f o)) :
    TailOk ns wrote (M.bind m f) := by
  intro st
  obtain ⟨Δm, hmt, hmns, hmnr, hmnst, hmw⟩ := hm st
  rcases hres : m st with ⟨r, st'⟩
  rw [hres] at hmt hmw
  have hmt' : st'.trace = st.trace ++ Δm := hmt
  rcases r with e | o
  · have heq : M.bind m f st = (.error e, st') := by
      simp [M.bind, hres]
    refine ⟨Δm, by rw [heq]; exact hmt', hmns, ?_, ?_⟩
    · intro a ha
      rw [heq] at ha
      simp at ha
    · intro hok
      rw [heq] at hok
      simp at hok
  · have heq : M.bind m f st = f o st' := by
      simp [M.bind, hres]
    obtain ⟨Δf, hft, hfns, hfreq, hfiff⟩ := hf o st'
    have hwm := hmw o rfl
    refine ⟨Δm ++ Δf, ?_, ?_, ?_, ?_⟩
    · rw [heq, hft, hmt', List.append_assoc]
    · intro i hi
      rcases List.mem_append.mp hi with hi | hi
      exacts [hmns i hi, hfns i hi]
    · intro a ha
      rw [heq] at ha
      exact hfreq a ha
    · intro hok
      rw [heq] at hok
      have hiff := hfiff hok
      rw [exists_mem_append, exists_mem_append]
      have hnoRec : ¬ ∃ i ∈ Δm, isEventWithReason "Reconciled" i = true :=
        not_exists_of_all_false hmnr
      constructor
      · intro hrec
        rcases hrec with hrec | hrec
        · exact absurd hrec hnoRec
        · rcases (hiff.mp hrec) with (hw | hw) | hw
          exacts [Or.inl hw, Or.inr (Or.inl (hwm.mpr hw)), Or.inr (Or.inr hw)]
      · intro hr
        refine Or.inr (hiff.mpr ?_)
        rcases hr with hw | hw | hw
        exacts [Or.inl (Or.inl hw), Or.inl (Or.inr (hwm.mp hw)), Or.inr hw]

lemma tailOk_final (env : Env) (md : ModelDeployment) (ns base : String)
    (spec : ModelDeploymentSpec) (wrote : Prop) [inst : Decidable wrote] :
    TailOk ns wrote
      (M.bind (get_child_status env base ns) (fun childSt =>
        M.bind (update_status env md ns
            (compute_model_deployment_status spec childSt.1 childSt.2)) (fun _ =>
          M.bind (if wrote then
                    emit_event env "Reconciled" "Reconciliation completed" EventType.Normal
                  else M.pure ()) (fun _ =>
            M.pure (Action.requeueSecs 60))))) := by
  intro st
  rcases hg1 : env.getDeployment (base ++ "-live") with e | liveO
  · have heq : (M.bind (get_child_status env base ns) (fun childSt =>
        M.bind (update_status env md ns
            (compute_model_deployment_status spec childSt.1 childSt.2)) (fun _ =>
          M.bind (if wrote then
                    emit_event env "Reconciled" "Reconciliation completed" EventType.Normal
                  else M.pure ()) (fun _ =>
            M.pure (Action.requeueSecs 60))))) st =
        (.error e, ⟨st.trace ++ [.getOp "Deployment" ns (base ++ "-live")], st.eventIdx⟩) := by
      simp [M.bind, get_child_status, hg1]
    refine ⟨[.getOp "Deployment" ns (base ++ "-live")], by rw [heq], ?_, ?_, ?_⟩
    · intro i hi
      simp at hi
      simp [hi, itemNsOk, itemNs]
    · intro a ha
      rw [heq] at ha
      simp at ha
    · intro hok
      rw [heq] at hok
      simp at hok
  · rcases hg2 : env.getDeployment (base ++ "-shadow") with e | shadowO
    · have heq : (M.bind (get_child_status env base ns) (fun childSt =>
          M.bind (update_status env md ns
              (compute_model_deployment_status spec childSt.1 childSt.2)) (fun _ =>
            M.bind (if wrote then
                      emit_event env "Reconciled" "Reconciliation completed" EventType.Normal
                    else M.pure ()) (fun _ =>
              M.pure (Action.requeueSecs 60))))) st =
          (.error e, ⟨st.trace ++ [.getOp "Deployment" ns (base ++ "-live"),
            .getOp "Deployment" ns (base ++ "-shadow")], st.eventIdx⟩) := by
        simp [M.bind, get_child_status, hg1, hg2]
      refine ⟨[.getOp "Deployment" ns (base ++ "-live"),
        .getOp "Deployment" ns (base ++ "-shadow")], by rw [heq], ?_, ?_, ?_⟩
      · intro i hi
        simp at hi
        rcases hi with hi | hi <;> simp [hi, itemNsOk, itemNs]
      · intro a ha
        rw [heq] at ha
        simp at ha
      · intro hok
        rw [heq] at hok
        simp at hok
    · rcases hps : env.patchStatusResult with e | u
      · have heq : (M.bind (get_child_status env base ns) (fun childSt =>
            M.bind (update_status env md ns
                (compute_model_deployment_status spec childSt.1 childSt.2)) (fun _ =>
              M.bind (if wrote then
                        emit_event env "Reconciled" "Reconciliation completed" EventType.Normal
                      else M.pure ()) (fun _ =>
                M.pure (Action.requeueSecs 60))))) st =
            (.error e, ⟨st.trace ++ [.getOp "Deployment" ns (base ++ "-live"),
              .getOp "Deployment" ns (base ++ "-shadow"),
              .statusPatch ns md.metadata.name
                (compute_model_deployment_status spec
                  (liveO.map convert_to_child_status) (shadowO.map convert_to_child_status))],
             st.eventIdx⟩) := by
          simp [M.bind, get_child_status, hg1, hg2, update_status, hps]
        refine ⟨[.getOp "Deployment" ns (base ++ "-live"),
          .getOp "Deployment" ns (base ++ "-shadow"),
          .statusPatch ns md.metadata.name
            (compute_model_deployment_status spec
              (liveO.map convert_to_child_status) (shadowO.map convert_to_child_status))],
          by rw [heq], ?_, ?_, ?_⟩
        · intro i hi
          simp at hi
          rcases hi with hi | hi | hi <;> simp [hi, itemNsOk, itemNs]
        · intro a ha
          rw [heq] at ha
          simp at ha
        · intro hok
          rw [heq] at hok
          simp at hok
      · by_cases hw : wrote
        · rcases hpub : env.publishOk st.eventIdx with _ | _
          · have heq : (M.bind (get_child_status env base ns) (fun childSt =>
                M.bind (update_status env md ns
                    (compute_model_deployment_status spec childSt.1 childSt.2)) (fun _ =>
                  M.bind (if wrote then
                            emit_event env "Reconciled" "Reconciliation completed" EventType.Normal
                          else M.pure ()) (fun _ =>
                    M.pure (Action.requeueSecs 60))))) st =
                (.error (.kube "event publish failed"),
                 ⟨st.trace ++ [.getOp "Deployment" ns (base ++ "-live"),
                  .getOp "Deployment" ns (base ++ "-shadow"),
                  .statusPatch ns md.metadata.name
                    (compute_model_deployment_status spec
                      (liveO.map convert_to_child_status)
                      (shadowO.map convert_to_child_status)),
                  .event "Reconciled" "Reconciliation completed" EventType.Normal false],
                 st.eventIdx + 1⟩) := by
              simp [M.bind, get_child_status, hg1, hg2, update_status, hps, if_pos hw,
                emit_event, hpub, M.pure]
            refine ⟨[.getOp "Deployment" ns (base ++ "-live"),
              .getOp "Deployment" ns (base ++ "-shadow"),
              .statusPatch ns md.metadata.name
                (compute_model_deployment_status spec
                  (liveO.map convert_to_child_status) (shadowO.map convert_to_child_status)),
              .event "Reconciled" "Reconciliation completed" EventType.Normal false],
              by rw [heq], ?_, ?_, ?_⟩
            · intro i hi
              simp at hi
              rcases hi with hi | hi | hi | hi <;> simp [hi, itemNsOk, itemNs]
            · intro a ha
              rw [heq] at ha
              simp at ha
            · intro hok
              rw [heq] at hok
              simp at hok
          · have heq : (M.bind (get_child_status env base ns) (fun childSt =>
                M.bind (update_status env md ns
                    (compute_model_deployment_status spec childSt.1 childSt.2)) (fun _ =>
                  M.bind (if wrote then
                            emit_event env "Reconciled" "Reconciliation completed" EventType.Normal
                          else M.pure ()) (fun _ =>
                    M.pure (Action.requeueSecs 60))))) st =
                (.ok (Action.requeueSecs 60),
                 ⟨st.trace ++ [.getOp "Deployment" ns (base ++ "-live"),
                  .getOp "Deployment" ns (base ++ "-shadow"),
                  .statusPatch ns md.metadata.name
                    (compute_model_deployment_status spec
                      (liveO.map convert_to_child_status)
                      (shadowO.map convert_to_child_status)),
                  .event "Reconciled" "Reconciliation completed" EventType.Normal true],
                 st.eventIdx + 1⟩) := by
              simp [M.bind, get_child_status, hg1, hg2, update_status, hps, if_pos hw,
                emit_event, hpub, M.pure]
            refine ⟨[.getOp "Deployment" ns (base ++ "-live"),
              .getOp "Deployment" ns (base ++ "-shadow"),
              .statusPatch ns md.metadata.name
                (compute_model_deployment_status spec
                  (liveO.map convert_to_child_status) (shadowO.map convert_to_child_status)),
              .event "Reconciled" "Reconciliation completed" EventType.Normal true],
              by rw [heq], ?_, ?_, ?_⟩
            · intro i hi
              simp at hi
              rcases hi with hi | hi | hi | hi <;> simp [hi, itemNsOk, itemNs]
            · intro a ha
              rw [heq] at ha
              simp at ha
              exact ha.symm
            · intro _
              constructor
              · intro _
                exact Or.inl hw
              · intro _
                refine ⟨.event "Reconciled" "Reconciliation completed" EventType.Normal true,
                  by simp, by simp [isEventWithReason]⟩
        · have heq : (M.bind (get_child_status env base ns) (fun childSt =>
              M.bind (update_status env md ns
                  (compute_model_deployment_status spec childSt.1 childSt.2)) (fun _ =>
                M.bind (if wrote then
                          emit_event env "Reconciled" "Reconciliation completed" EventType.Normal
                        else M.pure ()) (fun _ =>
                  M.pure (Action.requeueSecs 60))))) st =
              (.ok (Action.requeueSecs 60),
               ⟨st.trace ++ [.getOp "Deployment" ns (base ++ "-live"),
                .getOp "Deployment" ns (base ++ "-shadow"),
                .statusPatch ns md.metadata.name
                  (compute_model_deployment_status spec
                    (liveO.map convert_to_child_status)
                    (shadowO.map convert_to_child_status))],
               st.eventIdx⟩) := by
            simp [M.bind, get_child_status, hg1, hg2, update_status, hps, if_neg hw, M.pure]
          refine ⟨[.getOp "Deployment" ns (base ++ "-live"),
            .getOp "Deployment" ns (base ++ "-shadow"),
            .statusPatch ns md.metadata.name
              (compute_model_deployment_status spec
                (liveO.map convert_to_child_status) (shadowO.map convert_to_child_status))],
            by rw [heq], ?_, ?_, ?_⟩
          · intro i hi
            simp at hi
            rcases hi with hi | hi | hi <;> simp [hi, itemNsOk, itemNs]
          · intro a ha
            rw [heq] at ha
            simp at ha
            exact ha.symm
          · intro _
            constructor
            · rintro ⟨i, hi, hp⟩
              simp at hi
              rcases hi with hi | hi | hi <;> rw [hi] at hp <;> simp [isEventWithReason] at hp
            · rintro (hww | ⟨i, hi, hp⟩)
              · exact absurd hww hw
              · simp at hi
                rcases hi with hi | hi | hi <;> rw [hi] at hp <;> simp [isWrite] at hp

/-! ## Master lemmas for the two branches of a pass -/

lemma reconsile_tailOk (env : Env) (sers : Serializers) (md : ModelDeployment)
    (h : is_deleting md = false) :
    TailOk (md.metadata.nspace.getD "default") False (reconsile env sers md) := by
  unfold reconsile
  simp only [h, Bool.false_eq_true, if_false]
  refine tailOk_bind_step
    (stepOk_with_event env "Created finalizer for ModelDeployment" "FinalizerCreated"
      "FinalizerFailed" (by decide) (by decide)
      (stepOk_ensure_finalizer env md FINALIZER)) ?_
  intro o0
  dsimp only
  refine tailOk_bind_step
    (stepOk_with_event env "Created live svc for ModelDeployment" "LiveSvcCreated"
      "LiveSvcFailed" (by decide) (by decide)
      (stepOk_ensure_service env sers md md.metadata.name .Live)) ?_
  intro o1
  dsimp only
  refine tailOk_bind_step
    (stepOk_ite (stepOk_with_event env "Created shadow svc for ModelDeployment"
      "ShadowSvcCreated" "ShadowSvcFailed" (by decide) (by decide)
      (stepOk_ensure_service env sers md md.metadata.name .Shadow)) stepOk_pure_noop) ?_
  intro o2
  dsimp only
  refine tailOk_bind_step
    (stepOk_with_event env "Created live Deployment" "LiveDeploymentCreated"
      "LiveDeploymentFailed" (by decide) (by decide)
      (stepOk_ensure_deployment env sers md (md.metadata.name ++ "-live") md.metadata.name
        md.spec.live.image md.spec.live.replicas .Live)) ?_
  intro o3
  dsimp only
  refine tailOk_bind_step
    (stepOk_match_shadow md.spec.shadow (fun sh =>
      stepOk_with_event env "Created shadow Deployment" "ShadowDeploymentCreated"
        "ShadowDeploymentFailed" (by decide) (by decide)
        (stepOk_ensure_deployment env sers md (md.metadata.name ++ "-shadow") md.metadata.name
          sh.image sh.replicas .Shadow))) ?_
  intro o4
  dsimp only
  refine tailOk_bind_step
    (stepOk_ite (stepOk_with_event env "Created Traefik Service" "TraefikServiceCreated"
      "TraefikServiceFailed" (by decide) (by decide)
      (stepOk_ensure_traefik env sers md md.metadata.name)) stepOk_pure_noop) ?_
  intro o5
  dsimp only
  refine tailOk_bind_step
    (stepOk_ite (stepOk_with_event env "Created Ingress Route" "IngressRouteCreated"
      "IngressRouteFailed" (by decide) (by decide)
      (stepOk_ensure_ingress env sers md md.metadata.name)) stepOk_pure_noop) ?_
  intro o6
  dsimp only
  exact tailOk_congr (by tauto) (tailOk_final env md _ md.metadata.name md.spec _)

lemma reconsile_deleting (env : Env) (sers : Serializers) (md : ModelDeployment)
    (h : is_deleting md = true) (st : TraceSt) :
    ∃ Δ, (reconsile env sers md st).2.trace = st.trace ++ Δ ∧
      (∀ i ∈ Δ, itemNsOk (md.metadata.nspace.getD "default") i = true) ∧
      (∀ i ∈ Δ, isApplyItem i = false ∧ isStatusItem i = false) ∧
      (∀ a, (reconsile env sers md st).1 = .ok a → a = Action.awaitChange) ∧
      (has_finalizer md FINALIZER = true →
        (reconsile env sers md st).1 = .ok Action.awaitChange →
        (∃ i ∈ Δ, isEventWithReason "Finalizing" i = true) ∧
        TraceItem.metadataPatch (md.metadata.nspace.getD "default") md.metadata.name
            ((md.metadata.finalizers.getD []).filter (fun x => x ≠ FINALIZER)) ∈ Δ) := by
  by_cases hf : has_finalizer md FINALIZER
  · rcases hpub : env.publishOk st.eventIdx with _ | _
    · have heq : reconsile env sers md st =
          (.error (.kube "event publish failed"),
           ⟨st.trace ++ [.event "Finalizing" "Deletion requested; running finalizer."
              EventType.Normal false], st.eventIdx + 1⟩) := by
        simp [reconsile, h, hf, M.bind, emit_event, hpub]
      refine ⟨[.event "Finalizing" "Deletion requested; running finalizer."
          EventType.Normal false], by rw [heq], ?_, ?_, ?_, ?_⟩
      · intro i hi
        simp at hi
        simp [hi, itemNsOk, itemNs]
      · intro i hi
        simp at hi
        simp [hi, isApplyItem, isStatusItem]
      · intro a ha
        rw [heq] at ha
        simp at ha
      · intro _ hok
        rw [heq] at hok
        simp at hok
    · rcases hpm : env.patchMetadataResult with e | u
      · have heq : reconsile env sers md st =
            (.error e,
             ⟨st.trace ++ [.event "Finalizing" "Deletion requested; running finalizer."
                EventType.Normal true,
              .metadataPatch (md.metadata.nspace.getD "default") md.metadata.name
                ((md.metadata.finalizers.getD []).filter (fun x => x ≠ FINALIZER)),
              .event "FinalizingFailed" (errDisplay e) EventType.Warning
                (env.publishOk (st.eventIdx + 1))], st.eventIdx + 1 + 1⟩) := by
          simp [reconsile, h, hf, M.bind, emit_event, hpub, with_event, remove_finalizer, hpm]
        refine ⟨[.event "Finalizing" "Deletion requested; running finalizer."
            EventType.Normal true,
          .metadataPatch (md.metadata.nspace.getD "default") md.metadata.name
            ((md.metadata.finalizers.getD []).filter (fun x => x ≠ FINALIZER)),
          .event "FinalizingFailed" (errDisplay e) EventType.Warning
            (env.publishOk (st.eventIdx + 1))], by rw [heq], ?_, ?_, ?_, ?_⟩
        · intro i hi
          simp at hi
          rcases hi with hi | hi | hi <;> simp [hi, itemNsOk, itemNs]
        · intro i hi
          simp at hi
          rcases hi with hi | hi | hi <;> simp [hi, isApplyItem, isStatusItem]
        · intro a ha
          rw [heq] at ha
          simp at ha
        · intro _ hok
          rw [heq] at hok
          simp at hok
      · have heq : reconsile env sers md st =
            (.ok Action.awaitChange,
             ⟨st.trace ++ [.event "Finalizing" "Deletion requested; running finalizer."
                EventType.Normal true,
              .metadataPatch (md.metadata.nspace.getD "default") md.metadata.name
                ((md.metadata.finalizers.getD []).filter (fun x => x ≠ FINALIZER)),
              .event "Finalized" "Finalizer complete; allowing deletion." EventType.Normal
                (env.publishOk (st.eventIdx + 1))], st.eventIdx + 1 + 1⟩) := by
          simp [reconsile, h, hf, M.bind, M.pure, emit_event, hpub, with_event,
            remove_finalizer, hpm]
        refine ⟨[.event "Finalizing" "Deletion requested; running finalizer."
            EventType.Normal true,
          .metadataPatch (md.metadata.nspace.getD "default") md.metadata.name
            ((md.metadata.finalizers.getD []).filter (fun x => x ≠ FINALIZER)),
          .event "Finalized" "Finalizer complete; allowing deletion." EventType.Normal
            (env.publishOk (st.eventIdx + 1))], by rw [heq], ?_, ?_, ?_, ?_⟩
        · intro i hi
          simp at hi
          rcases hi with hi | hi | hi <;> simp [hi, itemNsOk, itemNs]
        · intro i hi
          simp at hi
          rcases hi with hi | hi | hi <;> simp [hi, isApplyItem, isStatusItem]
        · intro a ha
          rw [heq] at ha
          simp at ha
          exact ha.symm
        · intro _ _
          constructor
          · refine ⟨.event "Finalizing" "Deletion requested; running finalizer."
              EventType.Normal true, by simp, by simp [isEventWithReason]⟩
          · simp
  · have heq : reconsile env sers md st = (.ok Action.awaitChange, st) := by
      simp [reconsile, h, hf, M.pure]
    refine ⟨[], by rw [heq]; simp, by simp, by simp, ?_, ?_⟩
    · intro a ha
      rw [heq] at ha
      simp at ha
      exact ha.symm
    · intro hf2 _
      rw [hf2] at hf
      simp at hf

/-! ## Concrete fixtures used by witnesses and counterexamples -/

/-- A parent with no namespace, no finalizer, no shadow, and no mirror. -/
def demoMd : ModelDeployment :=
  { metadata := { name := "demo", uid := "u1" }
    spec := { live := { image := "model:1", replicas := 2 } } }

/-- A deleting parent that carries the sentinel finalizer. -/
def demoMdDeleting : ModelDeployment :=
  { metadata := { name := "demo"
                  uid := "u1"
                  finalizers := some [FINALIZER]
                  deletionTimestamp := some "2026-01-01T00:00:00Z" }
    spec := { live := { image := "model:1", replicas := 2 } } }

/-- A parent living in namespace "prod". -/
def demoMdProd : ModelDeployment :=
  { metadata := { name := "demo", nspace := some "prod", uid := "u1" }
    spec := { live := { image := "model:1", replicas := 2 } } }

def demoSers : Serializers :=
  ⟨fun _ => "", fun _ => "", fun _ => "", fun _ => ""⟩

/-- Cluster oracles where every call succeeds, no object exists yet, and every
event publish succeeds. -/
def envAllOk : Env :=
  { getService := fun _ => .ok none
    getDeployment := fun _ => .ok none
    getTraefikService := fun _ => .ok none
    getIngressRoute := fun _ => .ok none
    applyResult := fun _ _ => .ok ()
    patchMetadataResult := .ok ()
    patchStatusResult := .ok ()
    publishOk := fun _ => true }

/-- Same oracles, except the fourth event publish of the pass fails. On
`demoMd`'s first pass the first three publishes are FinalizerCreated,
LiveSvcCreated and LiveDeploymentCreated, so the failing one is exactly the
terminal "Reconciled" emission. -/
def envReconciledPublishFails : Env :=
  { envAllOk with publishOk := fun i => i != 3 }

def c1GetOpt : String → Except Error (Option Service) := fun _ => .ok none

def c1Apply : String → String → Except Error Unit := fun _ _ => .ok ()

def c1Desired : Service := build_service demoMd "demo" DeploymentType.Live

/-! ## Claim theorems -/

/-- C1: `reconsile_resource` returns `NoOp` and issues no apply patch exactly
when the object fetched under the desired object's name carries the
`ml.jedimindtricks.example/desired-fingerprint` annotation equal to the hex
SHA-256 of the serialized desired object; otherwise it issues one server-side
apply patch under field manager "model-operator" whose annotations carry that
fingerprint, and returns `Created` when no prior object existed, else
`Updated` (in particular when the annotation is missing or differs). -/
theorem C1_reconsile_resource_correct {K : Type} (ops : ResourceOps K)
    (getOpt : String → Except Error (Option K))
    (applyRes : String → String → Except Error Unit)
    (ns : String) (desired : K) (st : TraceSt) (ex : Option K)
    (hget : getOpt (ops.name desired) = .ok ex) :
    (fpMatches ops ex (sha256Hex (strBytes (ops.serialize desired))) = true →
       reconsile_resource ops getOpt applyRes ns desired st =
         (.ok Outcome.NoOp,
          ⟨st.trace ++ [.getOp ops.kind ns (ops.name desired)], st.eventIdx⟩)) ∧
    (fpMatches ops ex (sha256Hex (strBytes (ops.serialize desired))) = false →
       (reconsile_resource ops getOpt applyRes ns desired st).2.trace =
         st.trace ++ [.getOp ops.kind ns (ops.name desired),
           .applyPatch ops.kind ns (ops.name desired) "model-operator"
             (insertAssoc ((ops.anns desired).getD []) FP_ANN
               (sha256Hex (strBytes (ops.serialize desired))))] ∧
       lookupAssoc (insertAssoc ((ops.anns desired).getD []) FP_ANN
           (sha256Hex (strBytes (ops.serialize desired)))) FP_ANN =
         some (sha256Hex (strBytes (ops.serialize desired))) ∧
       (applyRes ops.kind (ops.name desired) = .ok () →
         (reconsile_resource ops getOpt applyRes ns desired st).1 =
           .ok (if ex.isNone then Outcome.Created else Outcome.Updated))) := by
  have hfp : desired_fingerprint ops.serialize desired =
      sha256Hex (strBytes (ops.serialize desired)) := rfl
  constructor
  · intro hm
    simp [reconsile_resource, hget, hfp, hm]
  · intro hm
    refine ⟨?_, lookupAssoc_insertAssoc _ _ _, ?_⟩
    · rcases ha : applyRes ops.kind (ops.name desired) with e | u <;>
        simp [reconsile_resource, hget, hfp, hm, ha]
    · intro happ
      simp [reconsile_resource, hget, hfp, hm, happ]

/-- Witness for C1: at a concrete live-service build with no prior object and
a successful apply, the engine reports `Created`. -/
theorem C1_witness :
    c1GetOpt ((svcOps demoSers).name c1Desired) = .ok none ∧
    (reconsile_resource (svcOps demoSers) c1GetOpt c1Apply "default" c1Desired {}).1 =
      .ok Outcome.Created := by
  refine ⟨rfl, ?_⟩
  have h := C1_reconsile_resource_correct (svcOps demoSers) c1GetOpt c1Apply "default"
    c1Desired {} none rfl
  have h2 := (h.2 rfl).2.2 rfl
  simpa using h2

/-- C2 (amended): an event-publish failure inside `with_event` never changes
the wrapped operation's result — the operation's own Ok/Err value is returned
unchanged whatever the recorder does. The original claim extended this to the
directly emitted Finalizing and Reconciled events, but those are published
with `?`, so their publish failures fail the pass (see the counterexample). -/
theorem C2_with_event_preserves_result (env : Env) (msg sr fr : String)
    (op : M Outcome) (st : TraceSt) :
    (with_event env msg sr fr op st).1 = (op st).1 := by
  rcases hres : op st with ⟨r, st'⟩
  rcases r with e | o
  · simp [with_event, hres]
  · rcases o <;> simp [with_event, hres]

/-- C2 counterexample: two passes over `demoMd` with identical cluster oracles
that differ only in whether the terminal "Reconciled" publish succeeds; the
publish failure turns the pass result from Ok into Err, contradicting the
claim that event-publish failures never fail the pass. -/
theorem C2_counterexample :
    (runReconsile envAllOk demoSers demoMd).1 = .ok (Action.requeueSecs 60) ∧
    (runReconsile envReconciledPublishFails demoSers demoMd).1 =
      .error (.kube "event publish failed") :=
  ⟨rfl, rfl⟩

/-- C3: the computed phase is Available when live available equals live
desired and (the spec has no shadow or shadow available equals shadow
desired); else Degraded when live available is 0 and live desired is
positive; else Progressing — with absent observations and absent
availableReplicas fields counting as available = 0. -/
theorem C3_phase_rule (spec : ModelDeploymentSpec) (live shadow : Option ChildStatus) :
    (compute_model_deployment_status spec live shadow).phase =
      some (if (live.bind ChildStatus.availableReplicas).getD 0 = spec.live.replicas ∧
               (spec.shadow = none ∨
                (shadow.bind ChildStatus.availableReplicas).getD 0 =
                  ((spec.shadow.map ModelVariant.replicas).getD 0))
            then "Available"
            else if (live.bind ChildStatus.availableReplicas).getD 0 = 0 ∧
                0 < spec.live.replicas
            then "Degraded" else "Progressing") := by
  unfold compute_model_deployment_status availabld_replicas
  simp only [← Option.isNone_iff_eq_none, gt_iff_lt]
  split_ifs <;> rfl

/-- C4: the aggregator always emits exactly the three conditions Ready,
Progressing and Degraded, and they are mutually consistent: Ready is True iff
Progressing is False, and Degraded True implies Ready False. -/
theorem C4_conditions_consistent (spec : ModelDeploymentSpec)
    (live shadow : Option ChildStatus) :
    ∃ c0 c1 c2, (compute_model_deployment_status spec live shadow).conditions =
        some [c0, c1, c2] ∧
      c0.typ = "Ready" ∧ c1.typ = "Progressing" ∧ c2.typ = "Degraded" ∧
      (c0.status = "True" ↔ c1.status = "False") ∧
      (c2.status = "True" → c0.status = "False") := by
  unfold compute_model_deployment_status
  refine ⟨_, _, _, rfl, rfl, rfl, rfl, ?_, ?_⟩
  · by_cases hR : availabld_replicas live = spec.live.replicas ∧
        (spec.shadow.isNone ∨ availabld_replicas shadow =
          ((spec.shadow.map ModelVariant.replicas).getD 0)) <;>
      simp [hR]
  · by_cases hD : availabld_replicas live = 0 ∧ spec.live.replicas > 0
    · obtain ⟨hD1, hD2⟩ := hD
      simp [hD1, hD2]
      intro h
      exfalso
      omega
    · simp [hD]

/-- C5 counterexample: for a parent in namespace "prod", the built live
service and live workload carry no `metadata.namespace` at all, so the claim
that every builder sets `metadata.namespace` to the parent's namespace fails. -/
theorem C5_counterexample :
    demoMdProd.metadata.nspace = some "prod" ∧
    (build_service demoMdProd "demo" DeploymentType.Live).metadata.nspace = none ∧
    (build_deployment demoMdProd "demo-live" "demo" "model:1" 2
        DeploymentType.Live).metadata.nspace = none :=
  ⟨rfl, rfl, rfl⟩

/-- C5 (amended): every builder sets `metadata.name` and a single
controller=true owner reference to the parent; services and workloads carry
labels `{app: base, role: live|shadow}` equal to their selector / match
labels / pod template labels; the route builders set `metadata.namespace` to
the namespace the pass resolved, while the service and workload builders
leave `metadata.namespace` unset (their API handles are namespaced instead). -/
theorem C5_builders_metadata (md : ModelDeployment)
    (base deploymentName image ns : String) (replicas : Int) (role : DeploymentType) :
    ((build_service md base role).metadata.name =
        some (base ++ "-" ++ role.display ++ "-svc") ∧
     (build_service md base role).metadata.nspace = none ∧
     (build_service md base role).metadata.ownerReferences = some [owner_ref md] ∧
     (build_service md base role).metadata.labels = some (roleLabels base role) ∧
     ((build_service md base role).spec.map ServiceSpec.selector) =
        some (some (roleLabels base role))) ∧
    ((build_deployment md deploymentName base image replicas role).metadata.name =
        some deploymentName ∧
     (build_deployment md deploymentName base image replicas role).metadata.nspace = none ∧
     (build_deployment md deploymentName base image replicas role).metadata.ownerReferences =
        some [owner_ref md] ∧
     (build_deployment md deploymentName base image replicas role).metadata.labels =
        some (roleLabels base role) ∧
     ((build_deployment md deploymentName base image replicas role).spec.map
        (fun s => s.selector.matchLabels)) = some (some (roleLabels base role)) ∧
     ((build_deployment md deploymentName base image replicas role).spec.map
        (fun s => s.template.metadata.map ObjectMeta.labels)) =
        some (some (some (roleLabels base role)))) ∧
    ((build_traefik_service md base ns).metadata.name = some base ∧
     (build_traefik_service md base ns).metadata.nspace = some ns ∧
     (build_traefik_service md base ns).metadata.ownerReferences = some [owner_ref md]) ∧
    ((build_ingress_route md base ns).metadata.name = some base ∧
     (build_ingress_route md base ns).metadata.nspace = some ns ∧
     (build_ingress_route md base ns).metadata.ownerReferences = some [owner_ref md]) ∧
    (owner_ref md).controller = some true ∧
    (owner_ref md).name = md.metadata.name ∧
    (owner_ref md).uid = md.metadata.uid ∧
    roleLabels base role = [("app", base), ("role", role.display)] := by
  exact ⟨⟨rfl, rfl, rfl, rfl, rfl⟩, ⟨rfl, rfl, rfl, rfl, rfl, rfl⟩,
    ⟨rfl, rfl, rfl⟩, ⟨rfl, rfl, rfl⟩, rfl, rfl, rfl, rfl⟩

/-- C6: on a successful non-deleting pass, the trace carries a terminal
"Reconciled" event exactly when the pass issued some write (a finalizer
metadata patch or a child apply patch), i.e. when some step returned a
non-NoOp outcome; a fully idle pass emits no Reconciled event. -/
theorem C6_reconciled_iff_changed (env : Env) (sers : Serializers) (md : ModelDeployment)
    (h : is_deleting md = false)
    (hok : (runReconsile env sers md).1 = .ok (Action.requeueSecs 60)) :
    ((∃ i ∈ (runReconsile env sers md).2.trace, isEventWithReason "Reconciled" i = true) ↔
     (∃ i ∈ (runReconsile env sers md).2.trace, isWrite i = true)) := by
  obtain ⟨Δ, ht, hns, hreq, hiff⟩ := reconsile_tailOk env sers md h {}
  have ht' : (runReconsile env sers md).2.trace = Δ := by
    simpa [runReconsile] using ht
  rw [ht']
  have := hiff (by simpa [runReconsile] using hok)
  simpa using this

/-- Witness for C6: the concrete first pass over `demoMd` succeeds, and the
equivalence holds on its trace. -/
theorem C6_witness :
    is_deleting demoMd = false ∧
    (runReconsile envAllOk demoSers demoMd).1 = .ok (Action.requeueSecs 60) ∧
    ((∃ i ∈ (runReconsile envAllOk demoSers demoMd).2.trace,
        isEventWithReason "Reconciled" i = true) ↔
     (∃ i ∈ (runReconsile envAllOk demoSers demoMd).2.trace, isWrite i = true)) :=
  ⟨rfl, rfl, C6_reconciled_iff_changed envAllOk demoSers demoMd rfl rfl⟩

/-- C7: a pass over a deleting parent performs no child apply and no status
patch; it can only return awaitChange; and when the sentinel was present and
the pass succeeded, a Finalizing event was emitted and a metadata patch was
written whose finalizer list no longer contains the sentinel. -/
theorem C7_deleting_pass (env : Env) (sers : Serializers) (md : ModelDeployment)
    (h : is_deleting md = true) :
    (∀ i ∈ (runReconsile env sers md).2.trace,
        isApplyItem i = false ∧ isStatusItem i = false) ∧
    (∀ a, (runReconsile env sers md).1 = .ok a → a = Action.awaitChange) ∧
    (has_finalizer md FINALIZER = true →
      (runReconsile env sers md).1 = .ok Action.awaitChange →
      (∃ i ∈ (runReconsile env sers md).2.trace,
          isEventWithReason "Finalizing" i = true) ∧
      (∃ fins, TraceItem.metadataPatch (md.metadata.nspace.getD "default")
          md.metadata.name fins ∈ (runReconsile env sers md).2.trace ∧
        FINALIZER ∉ fins)) := by
  obtain ⟨Δ, ht, hnsall, hnoapply, hawait, hfin⟩ := reconsile_deleting env sers md h {}
  have ht' : (runReconsile env sers md).2.trace = Δ := by
    simpa [runReconsile] using ht
  refine ⟨?_, ?_, ?_⟩
  · intro i hi
    rw [ht'] at hi
    exact hnoapply i hi
  · intro a ha
    exact hawait a (by simpa [runReconsile] using ha)
  · intro hf hok
    obtain ⟨hev, hpatch⟩ := hfin hf (by simpa [runReconsile] using hok)
    constructor
    · rw [ht']
      exact hev
    · exact ⟨_, by rw [ht']; exact hpatch, mem_filter_ne_self _ _⟩

/-- Witness for C7: the concrete pass over the deleting parent succeeds with
awaitChange, and the theorem's conclusions hold for it. -/
theorem C7_witness :
    is_deleting demoMdDeleting = true ∧
    (runReconsile envAllOk demoSers demoMdDeleting).1 = .ok Action.awaitChange ∧
    (∀ a, (runReconsile envAllOk demoSers demoMdDeleting).1 = .ok a →
        a = Action.awaitChange) :=
  ⟨rfl, rfl, (C7_deleting_pass envAllOk demoSers demoMdDeleting rfl).2.1⟩

/-- C8: `ensure_finalizer_present` is a read-only NoOp when the sentinel is
already present, otherwise it merge-patches metadata with the sentinel
appended and returns Created; `remove_finalizer` merge-patches metadata with
every occurrence of the sentinel stripped and returns Updated, and stripping
a list without the sentinel leaves it unchanged. -/
theorem C8_finalizer_ops (env : Env) (md : ModelDeployment) (ns f : String) (st : TraceSt) :
    (has_finalizer md f = true →
       ensure_finalizer_present env md ns f st = (.ok Outcome.NoOp, st)) ∧
    (has_finalizer md f = false →
       (ensure_finalizer_present env md ns f st).2.trace =
         st.trace ++ [.metadataPatch ns md.metadata.name
           ((md.metadata.finalizers.getD []) ++ [f])] ∧
       (env.patchMetadataResult = .ok () →
          (ensure_finalizer_present env md ns f st).1 = .ok Outcome.Created)) ∧
    ((remove_finalizer env md ns f st).2.trace =
       st.trace ++ [.metadataPatch ns md.metadata.name
         ((md.metadata.finalizers.getD []).filter (fun x => x ≠ f))] ∧
     (env.patchMetadataResult = .ok () →
        (remove_finalizer env md ns f st).1 = .ok Outcome.Updated) ∧
     f ∉ (md.metadata.finalizers.getD []).filter (fun x => x ≠ f)) ∧
    (∀ l : List String, f ∉ l → l.filter (fun x => x ≠ f) = l) := by
  refine ⟨?_, ?_, ⟨?_, ?_, mem_filter_ne_self _ _⟩, fun l hl => filter_ne_of_not_mem l f hl⟩
  · intro hf
    simp [ensure_finalizer_present, hf]
  · intro hf
    constructor
    · rcases hpm : env.patchMetadataResult with e | u <;>
        simp [ensure_finalizer_present, hf, hpm]
    · intro hpm
      simp [ensure_finalizer_present, hf, hpm]
  · rcases hpm : env.patchMetadataResult with e | u <;>
      simp [remove_finalizer, hpm]
  · intro hpm
    simp [remove_finalizer, hpm]

/-- C9: the fingerprint is deterministic — it is the pure function
hex-SHA-256 of the serialized bytes, so equal inputs (and more generally
equal serializations) always yield the same hex string, making
fingerprint-of-build stable across invocations for identical spec input. -/
theorem C9_fingerprint_deterministic {K : Type} (serialize : K → String) (a b : K)
    (h : a = b) :
    desired_fingerprint serialize a = desired_fingerprint serialize b ∧
    desired_fingerprint serialize a = sha256Hex (strBytes (serialize a)) ∧
    (∀ c d : K, serialize c = serialize d →
       desired_fingerprint serialize c = desired_fingerprint serialize d) := by
  subst h
  refine ⟨rfl, rfl, ?_⟩
  intro c d hcd
  unfold desired_fingerprint
  rw [hcd]

/-- Witness for C9 at a concrete builder output. -/
theorem C9_witness :
    build_service demoMd "demo" DeploymentType.Live =
      build_service demoMd "demo" DeploymentType.Live ∧
    desired_fingerprint demoSers.svc (build_service demoMd "demo" DeploymentType.Live) =
      desired_fingerprint demoSers.svc (build_service demoMd "demo" DeploymentType.Live) :=
  ⟨rfl, (C9_fingerprint_deterministic demoSers.svc _ _ rfl).1⟩

/-- C10: when the parent carries no namespace, every API interaction the pass
records — child gets and applies, the status patch and the finalizer
patches — is scoped to namespace "default", in both the deleting and the
non-deleting branch, whether or not the pass succeeds. -/
theorem C10_default_namespace (env : Env) (sers : Serializers) (md : ModelDeployment)
    (h : md.metadata.nspace = none) :
    ∀ i ∈ (runReconsile env sers md).2.trace, itemNsOk "default" i = true := by
  have hd : md.metadata.nspace.getD "default" = "default" := by
    rw [h]
    rfl
  rcases hdel : is_deleting md with _ | _
  · obtain ⟨Δ, ht, hns, _, _⟩ := reconsile_tailOk env sers md hdel {}
    have ht' : (runReconsile env sers md).2.trace = Δ := by
      simpa [runReconsile] using ht
    intro i hi
    rw [ht'] at hi
    have := hns i hi
    rwa [hd] at this
  · obtain ⟨Δ, ht, hns, _, _, _⟩ := reconsile_deleting env sers md hdel {}
    have ht' : (runReconsile env sers md).2.trace = Δ := by
      simpa [runReconsile] using ht
    intro i hi
    rw [ht'] at hi
    have := hns i hi
    rwa [hd] at this

/-- Witness for C10: `demoMd` carries no namespace and the property holds on
its concrete pass. -/
theorem C10_witness :
    demoMd.metadata.nspace = none ∧
    (∀ i ∈ (runReconsile envAllOk demoSers demoMd).2.trace,
        itemNsOk "default" i = true) :=
  ⟨rfl, C10_default_namespace envAllOk demoSers demoMd rfl⟩

end ModelOperator
